import Mathlib

/-!
Verification development for the reservation-worker event-processing core.

The repository contains two parallel implementations of the processing
pipeline:

* an SQS `Worker` (internal/worker/worker.go, first unit) that parses
  `types.Event` values (pkg/types/event.go), retries via
  `cenkalti/backoff.Retry`, and dispatches to `EventHandlerImpl`
  (internal/handler/handler.go); this path is not wired by `main.go`;
* the wired path (cmd/reservation-worker/main.go): `SQSPoller` →
  `Dispatcher.HandleEvent` (internal/worker/worker.go, later units) →
  `ExpiredHandler` / `ApprovedHandler` / `FailedHandler`
  (internal/handler/event.go, failed.go, and the expired handler unit).

Both are embedded below.  Go functions become Lean functions; queue and
downstream effects become explicit action traces; contexts become explicit
`cancelled` flags consulted exactly where the source consults them; machine
integers are `Nat`/`Int` (all quantities involved are small and
non-negative in the source, so no overflow reduction is needed);
millisecond durations are `Nat`.
-/

namespace RW

/-! ## JSON values (Go `interface{}` as decoded by encoding/json)

`encoding/json` decodes every JSON number into `float64`; the payload
extractors in pkg/types/event.go only type-assert (`.(float64)`,
`.(string)`, `.([]interface{})`) and convert, so a number is modelled as
an `Int` (the integral values exercised by the code) and the assertions
as `Option`-valued projections. -/

inductive JVal where
  | jnull
  | jbool (b : Bool)
  | jnum (x : Int)
  | jstr (s : String)
  | jarr (xs : List JVal)

/-- Go map indexing `m["k"]` followed by a type assertion: a missing key
yields the nil interface, on which every assertion fails, so a missing
key and a wrongly-typed value are both `none` at the projection. -/
def lookupP (m : List (String × JVal)) (k : String) : Option JVal :=
  (m.find? (fun p => p.1 = k)).map Prod.snd

/-! ## pkg/types/event.go -/

/-- `types.Event` (pkg/types/event.go lines 20-28).  `Timestamp` is
informational only and omitted; `Payload` is the decoded
`map[string]interface{}`. -/
structure AEvent where
  id : String
  type : String
  reservationId : String
  eventId : String
  payload : List (String × JVal)
  traceId : String

/-- `types.ReservationExpiredPayload`. -/
structure ReservationExpiredPayload where
  quantity : Int
  seatIds : List String
deriving DecidableEq

/-- `types.PaymentApprovedPayload`. -/
structure PaymentApprovedPayload where
  paymentIntentId : String
  amount : Int
deriving DecidableEq

/-- `types.PaymentFailedPayload`. -/
structure PaymentFailedPayload where
  paymentIntentId : String
  amount : Int
deriving DecidableEq

/-- `Event.GetReservationExpiredPayload` (pkg/types/event.go lines 49-62):
starts from the zero payload, copies `qty` only when the assertion
`.(float64)` succeeds, appends only the `seat_ids` elements whose
assertion `.(string)` succeeds, and returns a nil error unconditionally. -/
def getReservationExpiredPayload (e : AEvent) : Except String ReservationExpiredPayload :=
  let q : Int :=
    match lookupP e.payload "qty" with
    | some (JVal.jnum x) => x
    | _ => 0
  let seats : List String :=
    match lookupP e.payload "seat_ids" with
    | some (JVal.jarr xs) =>
        xs.foldl (fun acc v =>
          match v with
          | JVal.jstr s => acc ++ [s]
          | _ => acc) []
    | _ => []
  Except.ok { quantity := q, seatIds := seats }

/-- `Event.GetPaymentApprovedPayload` (pkg/types/event.go lines 65-74). -/
def getPaymentApprovedPayload (e : AEvent) : Except String PaymentApprovedPayload :=
  let pid : String :=
    match lookupP e.payload "payment_intent_id" with
    | some (JVal.jstr s) => s
    | _ => ""
  let amt : Int :=
    match lookupP e.payload "amount" with
    | some (JVal.jnum x) => x
    | _ => 0
  Except.ok { paymentIntentId := pid, amount := amt }

/-- `Event.GetPaymentFailedPayload` (pkg/types/event.go lines 77-86). -/
def getPaymentFailedPayload (e : AEvent) : Except String PaymentFailedPayload :=
  let pid : String :=
    match lookupP e.payload "payment_intent_id" with
    | some (JVal.jstr s) => s
    | _ => ""
  let amt : Int :=
    match lookupP e.payload "amount" with
    | some (JVal.jnum x) => x
    | _ => 0
  Except.ok { paymentIntentId := pid, amount := amt }

/-- A payload whose every relevant field is present but wrongly typed:
`qty` is a string, `seat_ids` a number, `payment_intent_id` a number,
`amount` a string. -/
def wrongTypedPayload : List (String × JVal) :=
  [("qty", JVal.jstr "two"), ("seat_ids", JVal.jnum 7),
   ("payment_intent_id", JVal.jnum 5), ("amount", JVal.jstr "much")]

/-- An event carrying `wrongTypedPayload`. -/
def wrongTypedEvent : AEvent :=
  { id := "evt-x", type := "reservation.expired", reservationId := "rsv-x",
    eventId := "e-x", payload := wrongTypedPayload, traceId := "" }

/-- C10: the three payload extractors of pkg/types/event.go never return an
error, for any payload whatsoever; and on a payload whose fields are all
wrongly typed they silently produce the all-zero payloads (quantity 0,
empty seat list, empty payment_intent_id, amount 0). -/
theorem C10_payload_extractors_total :
    (∀ e : AEvent,
      (getReservationExpiredPayload e).isOk = true ∧
      (getPaymentApprovedPayload e).isOk = true ∧
      (getPaymentFailedPayload e).isOk = true) ∧
    getReservationExpiredPayload wrongTypedEvent =
      Except.ok { quantity := 0, seatIds := [] } ∧
    getPaymentApprovedPayload wrongTypedEvent =
      Except.ok { paymentIntentId := "", amount := 0 } ∧
    getPaymentFailedPayload wrongTypedEvent =
      Except.ok { paymentIntentId := "", amount := 0 } := by
  refine ⟨fun e => ⟨rfl, rfl, rfl⟩, ?_, ?_, ?_⟩ <;> rfl

/-! ## internal/worker/worker.go, first unit: the SQS `Worker`

`Worker.parseEvent` json-unmarshals the message body into a `types.Event`;
the unmarshal itself is standard library, so a message body is modelled as
either absent (`msg.Body == nil`), undecodable JSON, or the decoded
`AEvent`. -/

/-- The body of an SQS message as `Worker.parseEvent` sees it. -/
inductive ABody where
  | nilBody
  | badJson
  | decoded (e : AEvent)

/-- An SQS message for the first `Worker` (aws `types.Message`): body,
receipt handle and message id. -/
structure AMessage where
  body : ABody
  receiptHandle : String
  messageId : String

/-- `Worker.parseEvent` (internal/worker/worker.go lines 193-218): nil or
undecodable body is an error; then `id`, `reservation_id` and `type` must
be non-empty; finally the receipt handle is stored into the event's
`TraceID` field ("Store receipt handle for later deletion"), overwriting
whatever `trace_id` the wire body carried. -/
def parseEvent (msg : AMessage) : Except String AEvent :=
  match msg.body with
  | ABody.nilBody => Except.error "message body is nil"
  | ABody.badJson => Except.error "failed to unmarshal event"
  | ABody.decoded e =>
    if e.id = "" then Except.error "event id is required"
    else if e.reservationId = "" then Except.error "reservation_id is required"
    else if e.type = "" then Except.error "event type is required"
    else Except.ok { e with traceId := msg.receiptHandle }

/-! ### cenkalti/backoff v4 as configured by `processEventWithRetry`

`Worker.processEventWithRetry` (worker.go lines 246-314) builds
`backoff.NewExponentialBackOff()` with `InitialInterval = w.backoffBase`,
`MaxInterval = 2 min`, `MaxElapsedTime = 5 min`; the library defaults
`Multiplier = 1.5` and `RandomizationFactor = 0.5` remain.  Each
`NextBackOff` call returns `Stop` when the elapsed wall time plus the next
delay would exceed `MaxElapsedTime`, else a delay drawn from
[interval/2, 3·interval/2]; the run below fixes the draw at the midpoint
(the exact current interval), which is in the permitted range, and takes
the handler's own running time as zero, so elapsed time is the sum of the
completed sleeps.  Intervals are milliseconds; the 1.5 multiplications on
these integral values are exact, floored as `* 3 / 2`. -/

/-- State of the `ExponentialBackOff` strategy: current interval plus the
two configured ceilings, in milliseconds. -/
structure ExpBackoff where
  currentIntervalMs : Nat
  maxIntervalMs : Nat
  maxElapsedMs : Nat

/-- `incrementCurrentInterval`: if `currentInterval >= MaxInterval /
Multiplier` the interval saturates at `MaxInterval`, else it is multiplied
by 1.5. -/
def incInterval (b : ExpBackoff) : ExpBackoff :=
  if b.maxIntervalMs * 2 ≤ b.currentIntervalMs * 3 then
    { b with currentIntervalMs := b.maxIntervalMs }
  else
    { b with currentIntervalMs := b.currentIntervalMs * 3 / 2 }

/-- `NextBackOff` with the midpoint draw: `none` is the library's `Stop`
marker, returned exactly when `elapsed + next > MaxElapsedTime`; the
attempt counter is never consulted. -/
def nextBackOff (b : ExpBackoff) (elapsedMs : Nat) : Option (Nat × ExpBackoff) :=
  if b.maxElapsedMs < elapsedMs + b.currentIntervalMs then none
  else some (b.currentIntervalMs, incInterval b)

/-- One observable step of the first `Worker`'s processing of an event:
a handler invocation (`attempt n`, 1-based as in the source counter), the
SQS delete issued on handler success, or a backoff sleep. -/
inductive AAction where
  | attempt (n : Nat)
  | delete (receipt : String)
  | sleep (ms : Nat)
deriving DecidableEq

/-- The `backoff.Retry(operation, ...)` loop of `processEventWithRetry`:
run the operation; on success the operation itself has already deleted the
message (worker.go line 279, using `&event.TraceID`) and the loop ends; on
error ask the strategy for the next delay and stop only when it answers
`Stop`.  `opFails n` tells whether the n-th handler invocation errors.
`fuel` dominates the loop depth; every run below stays far below it. -/
def backoffRetryGo (opFails : Nat → Bool) (receipt : String) :
    Nat → ExpBackoff → Nat → Nat → Bool × List AAction
  | 0, _, _, _ => (false, [])
  | fuel + 1, b, elapsed, attempt =>
    let n := attempt + 1
    if opFails n then
      match nextBackOff b elapsed with
      | none => (false, [AAction.attempt n])
      | some (d, b') =>
        let rest := backoffRetryGo opFails receipt fuel b' (elapsed + d) n
        (rest.1, AAction.attempt n :: AAction.sleep d :: rest.2)
    else
      (true, [AAction.attempt n, AAction.delete receipt])

/-- `Worker.processEventWithRetry` (worker.go lines 246-314) as a trace:
the strategy is initialised from the configured base and the hard-coded
2-minute interval cap and 5-minute elapsed cap.  The worker's `maxRetries`
field (read from `MAX_RETRIES` into the struct at construction) appears
nowhere in the loop. -/
def processEventWithRetry (backoffBaseMs : Nat) (opFails : Nat → Bool)
    (e : AEvent) : Bool × List AAction :=
  backoffRetryGo opFails e.traceId 64
    { currentIntervalMs := backoffBaseMs, maxIntervalMs := 120000, maxElapsedMs := 300000 } 0 0

/-- Number of handler invocations in a trace. -/
def countAttempts (acts : List AAction) : Nat :=
  acts.countP (fun a => match a with | AAction.attempt _ => true | _ => false)

/-- Number of queue deletes in a trace. -/
def countDeletes (acts : List AAction) : Nat :=
  acts.countP (fun a => match a with | AAction.delete _ => true | _ => false)

/-- A well-formed expired event whose downstream handling always fails. -/
def failingEvent : AEvent :=
  { id := "evt-f", type := "reservation.expired", reservationId := "rsv-f",
    eventId := "e-f", payload := [], traceId := "rcpt-f" }

/-- C3: with `MAX_RETRIES = 0` (a value `Config.Validate` accepts) and
`BACKOFF_BASE_MS = 100`, a handler that fails every time is invoked 19
times by `Worker.processEventWithRetry` — far beyond the claimed bound of
`max_retries + 1 = 1` invocation — because `backoff.Retry` stops on the
5-minute `MaxElapsedTime`, never on the worker's unused `maxRetries`
field; and no delete is issued on this exhausted run. -/
theorem C3_processEventWithRetry_exceeds_bound :
    countAttempts (processEventWithRetry 100 (fun _ => true) failingEvent).2 = 19 ∧
    0 + 1 < countAttempts (processEventWithRetry 100 (fun _ => true) failingEvent).2 ∧
    countDeletes (processEventWithRetry 100 (fun _ => true) failingEvent).2 = 0 := by
  refine ⟨by decide, by decide, by decide⟩

/-! ## internal/handler/event.go: the wired path's event type

`handler.Event` carries a raw JSON `Detail` that `ParseEventDetail`
unmarshals per event type.  All three detail structs are field subsets of
one record, so a decodable detail object is modelled as one record with
every field (absent JSON fields decode to Go zero values, which are the
record's defaults), and an undecodable detail as `bad`. -/

/-- Superset of `ReservationExpiredDetail`, `PaymentApprovedDetail` and
`PaymentFailedDetail` (internal/handler/event.go lines 24-57). -/
structure DetailFields where
  reservationId : String := ""
  eventId : String := ""
  qty : Int := 0
  seatIds : List String := []
  paymentIntentId : String := ""
  amount : Int := 0
  errorCode : String := ""
  errorMessage : String := ""

/-- The raw `Detail` payload: either JSON that fails to unmarshal into the
typed detail struct, or the decoded fields. -/
inductive RawDetail where
  | bad
  | obj (f : DetailFields)

/-- `handler.Event` (internal/handler/event.go lines 10-21); `Source`,
`Time` and the envelope extras are not consulted by the embedded code. -/
structure HEvent where
  id : String
  type : String
  detail : RawDetail
  traceId : String

/-- `ParseEventDetail`'s result, tagged by the struct it decoded into. -/
inductive ParsedDetail where
  | expired (f : DetailFields)
  | approved (f : DetailFields)
  | failed (f : DetailFields)

/-- `Event.ParseEventDetail` (internal/handler/event.go lines 71-98):
switch on `Type` first — `reservation.expired` and the legacy
`reservation.hold.expired` decode as an expired detail — and unknown types
error out without touching the detail. -/
def parseEventDetail (e : HEvent) : Except String ParsedDetail :=
  if e.type = "reservation.expired" ∨ e.type = "reservation.hold.expired" then
    match e.detail with
    | RawDetail.bad => Except.error "unmarshal error"
    | RawDetail.obj f => Except.ok (ParsedDetail.expired f)
  else if e.type = "payment.approved" then
    match e.detail with
    | RawDetail.bad => Except.error "unmarshal error"
    | RawDetail.obj f => Except.ok (ParsedDetail.approved f)
  else if e.type = "payment.failed" then
    match e.detail with
    | RawDetail.bad => Except.error "unmarshal error"
    | RawDetail.obj f => Except.ok (ParsedDetail.failed f)
  else Except.error ("unknown event type: " ++ e.type)

/-! ## Downstream calls

The handlers orchestrate two collaborators: the inventory gRPC client
(`ReleaseHold`, `CommitReservation`) and the reservation HTTP client
(`UpdateReservationStatus`).  A downstream environment decides whether
each call succeeds; a handler run yields its error-freeness and the
ordered list of calls it issued. -/

/-- A downstream call with its arguments. -/
inductive Call where
  | updateStatus (reservationId status : String)
  | releaseHold (eventId reservationId : String) (qty : Int) (seatIds : List String)
  | commitReservation (eventId reservationId : String) (qty : Int)
      (seatIds : List String) (paymentIntentId : String)
deriving DecidableEq

/-- Downstream behaviour: `true` means the call returns a nil error. -/
def Downstream := Call → Bool

/-- `ExpiredHandler.Handle` (the expired-handler unit, lines 246-332):
parse the detail; step 1 `inventoryClient.ReleaseHold` — an error aborts
the handler; step 2 `reservationClient.UpdateReservationStatus(...,
StatusExpired)`. -/
def expiredHandle (ds : Downstream) (e : HEvent) : Bool × List Call :=
  match parseEventDetail e with
  | Except.error _ => (false, [])
  | Except.ok (ParsedDetail.expired f) =>
    let c1 := Call.releaseHold f.eventId f.reservationId f.qty f.seatIds
    if ds c1 then
      let c2 := Call.updateStatus f.reservationId "EXPIRED"
      if ds c2 then (true, [c1, c2]) else (false, [c1, c2])
    else (false, [c1])
  | Except.ok _ => (false, [])

/-- `FailedHandler.Handle` (internal/handler/failed.go lines 39-134):
step 1 `UpdateReservationStatus(..., StatusCancelled)`; step 2
`ReleaseHold` only when `EventID != ""` and `len(SeatIDs) > 0`. -/
def failedHandle (ds : Downstream) (e : HEvent) : Bool × List Call :=
  match parseEventDetail e with
  | Except.error _ => (false, [])
  | Except.ok (ParsedDetail.failed f) =>
    let c1 := Call.updateStatus f.reservationId "CANCELLED"
    if ds c1 then
      if f.eventId != "" && !f.seatIds.isEmpty then
        let c2 := Call.releaseHold f.eventId f.reservationId f.qty f.seatIds
        if ds c2 then (true, [c1, c2]) else (false, [c1, c2])
      else (true, [c1])
    else (false, [c1])
  | Except.ok _ => (false, [])

/-- Modelled from the spec: the body of `ApprovedHandler.Handle`
(internal/handler/approved.go) is not under src/ — only its constructor
call `handler.NewApprovedHandler` and its dispatch site
`d.approvedHandler.Handle(ctx, event)` in internal/worker/worker.go are.
Per spec §4.4.2: step 1 `reservation.UpdateStatus(reservation_id,
CONFIRMED)`; step 2 commit in inventory only if the payload contains both
`event_id` and non-empty `seat_ids`, otherwise skipped.  The conditional
follows the sibling `FailedHandler.Handle`'s guard shape. -/
def approvedHandle (ds : Downstream) (e : HEvent) : Bool × List Call :=
  match parseEventDetail e with
  | Except.error _ => (false, [])
  | Except.ok (ParsedDetail.approved f) =>
    let c1 := Call.updateStatus f.reservationId "CONFIRMED"
    if ds c1 then
      if f.eventId != "" && !f.seatIds.isEmpty then
        let c2 := Call.commitReservation f.eventId f.reservationId f.qty f.seatIds
          f.paymentIntentId
        if ds c2 then (true, [c1, c2]) else (false, [c1, c2])
      else (true, [c1])
    else (false, [c1])
  | Except.ok _ => (false, [])

/-- `EventHandlerImpl.handleReservationExpired` (internal/handler/handler.go
lines 73-97), the unwired path's expired handler: step 1 is
`UpdateReservationStatus(..., StatusExpired)` and step 2 is
`ReleaseHold` — the opposite order of `ExpiredHandler.Handle`. -/
def handleReservationExpired (ds : Downstream) (e : AEvent) : Bool × List Call :=
  match getReservationExpiredPayload e with
  | Except.error _ => (false, [])
  | Except.ok p =>
    let c1 := Call.updateStatus e.reservationId "EXPIRED"
    if ds c1 then
      let c2 := Call.releaseHold e.eventId e.reservationId p.quantity p.seatIds
      if ds c2 then (true, [c1, c2]) else (false, [c1, c2])
    else (false, [c1])

/-- `EventHandlerImpl.handlePaymentApproved` (internal/handler/handler.go
lines 100-123): step 1 `UpdateReservationStatus(..., StatusConfirmed)`;
the inventory commit step is a comment only — no commit call exists. -/
def handlePaymentApproved (ds : Downstream) (e : AEvent) : Bool × List Call :=
  match getPaymentApprovedPayload e with
  | Except.error _ => (false, [])
  | Except.ok _ =>
    let c1 := Call.updateStatus e.reservationId "CONFIRMED"
    if ds c1 then (true, [c1]) else (false, [c1])

/-- A downstream environment in which every call succeeds. -/
def allOk : Downstream := fun _ => true

/-- The spec's S1 event, as the unwired path's `types.Event`. -/
def s1EventA : AEvent :=
  { id := "m1", type := "reservation.expired", reservationId := "rsv_1",
    eventId := "evt_1",
    payload := [("qty", JVal.jnum 2),
                ("seat_ids", JVal.jarr [JVal.jstr "A1", JVal.jstr "A2"])],
    traceId := "rcpt-1" }

/-- C5 counterexample: processing the spec's S1 expired event to success
through `EventHandlerImpl.handleReservationExpired` issues
`UpdateStatus(EXPIRED)` first and `ReleaseHold` second — not the claimed
release-then-update order. -/
theorem C5_counterexample :
    (handleReservationExpired allOk s1EventA).1 = true ∧
    (handleReservationExpired allOk s1EventA).2 =
      [Call.updateStatus "rsv_1" "EXPIRED",
       Call.releaseHold "evt_1" "rsv_1" 2 ["A1", "A2"]] ∧
    (handleReservationExpired allOk s1EventA).2 ≠
      [Call.releaseHold "evt_1" "rsv_1" 2 ["A1", "A2"],
       Call.updateStatus "rsv_1" "EXPIRED"] := by
  refine ⟨rfl, rfl, by decide⟩

/-- C5 as amended: for an expired (or legacy hold.expired) event with a
decodable detail, `ExpiredHandler.Handle` (the wired path) performs
exactly `ReleaseHold` then `UpdateStatus(EXPIRED)` on success, and a
failing `ReleaseHold` aborts before any second call; the unwired
`EventHandlerImpl.handleReservationExpired` performs the same two calls
in the opposite order (`UpdateStatus(EXPIRED)` first, then `ReleaseHold`),
a failing first call likewise aborting before the second. -/
theorem C5_expired_call_order (ds : Downstream) (e : HEvent) (f : DetailFields)
    (htype : e.type = "reservation.expired" ∨ e.type = "reservation.hold.expired")
    (hdet : e.detail = RawDetail.obj f) :
    (let rel := Call.releaseHold f.eventId f.reservationId f.qty f.seatIds
     let upd := Call.updateStatus f.reservationId "EXPIRED"
     ((expiredHandle ds e).1 = true →
        (expiredHandle ds e).2 = [rel, upd]) ∧
     (ds rel = false → (expiredHandle ds e).2 = [rel])) ∧
    (∀ e' : AEvent, ∀ p, getReservationExpiredPayload e' = Except.ok p →
     let upd' := Call.updateStatus e'.reservationId "EXPIRED"
     let rel' := Call.releaseHold e'.eventId e'.reservationId p.quantity p.seatIds
     ((handleReservationExpired ds e').1 = true →
        (handleReservationExpired ds e').2 = [upd', rel']) ∧
     (ds upd' = false → (handleReservationExpired ds e').2 = [upd'])) := by
  constructor
  · have hparse : parseEventDetail e = Except.ok (ParsedDetail.expired f) := by
      unfold parseEventDetail
      rw [if_pos htype, hdet]
    constructor
    · intro hok
      unfold expiredHandle at hok ⊢
      rw [hparse] at hok ⊢
      by_cases h1 : ds (Call.releaseHold f.eventId f.reservationId f.qty f.seatIds)
      · by_cases h2 : ds (Call.updateStatus f.reservationId "EXPIRED")
        · simp [h1, h2]
        · simp [h1, h2] at hok
      · simp [h1] at hok
    · intro hfail
      unfold expiredHandle
      rw [hparse]
      simp [hfail]
  · intro e' p hp
    constructor
    · intro hok
      unfold handleReservationExpired at hok ⊢
      rw [hp] at hok ⊢
      by_cases h1 : ds (Call.updateStatus e'.reservationId "EXPIRED")
      · by_cases h2 : ds (Call.releaseHold e'.eventId e'.reservationId p.quantity p.seatIds)
        · simp [h1, h2]
        · simp [h1, h2] at hok
      · simp [h1] at hok
    · intro hfail
      unfold handleReservationExpired
      rw [hp]
      simp [hfail]

/-- The spec's S1 expired event in the wired path's `handler.Event` shape. -/
def s1EventB : HEvent :=
  { id := "m1", type := "reservation.expired",
    detail := RawDetail.obj
      { reservationId := "rsv_1", eventId := "evt_1", qty := 2,
        seatIds := ["A1", "A2"] },
    traceId := "" }

/-- Witness for `C5_expired_call_order` at the S1 event under an
all-success downstream. -/
theorem C5_expired_call_order_witness :
    (expiredHandle allOk s1EventB).2 =
      [Call.releaseHold "evt_1" "rsv_1" 2 ["A1", "A2"],
       Call.updateStatus "rsv_1" "EXPIRED"] := by
  have h := C5_expired_call_order allOk s1EventB
    { reservationId := "rsv_1", eventId := "evt_1", qty := 2, seatIds := ["A1", "A2"] }
    (Or.inl rfl) rfl
  exact h.1.1 rfl

/-- Whether a call is an inventory `CommitReservation`. -/
def isCommit : Call → Bool
  | Call.commitReservation _ _ _ _ _ => true
  | _ => false

/-- Whether a call trace contains an inventory commit. -/
def containsCommit (cs : List Call) : Bool := cs.any isCommit

/-- C6: for a `payment.approved` event with a decodable detail, the
handler's first downstream call is `UpdateStatus(reservation_id,
CONFIRMED)`; when that call succeeds, the trace contains a
`CommitReservation` exactly when the payload carries a non-empty
`event_id` and non-empty `seat_ids`; and a failed status update aborts
before any commit. -/
theorem C6_approved_conditional_commit (ds : Downstream) (e : HEvent) (f : DetailFields)
    (htype : e.type = "payment.approved") (hdet : e.detail = RawDetail.obj f) :
    (approvedHandle ds e).2.head? =
        some (Call.updateStatus f.reservationId "CONFIRMED") ∧
    (ds (Call.updateStatus f.reservationId "CONFIRMED") = true →
      (containsCommit (approvedHandle ds e).2 = true ↔
        (f.eventId ≠ "" ∧ f.seatIds ≠ []))) ∧
    (ds (Call.updateStatus f.reservationId "CONFIRMED") = false →
      (approvedHandle ds e).2 = [Call.updateStatus f.reservationId "CONFIRMED"]) := by
  have hparse : parseEventDetail e = Except.ok (ParsedDetail.approved f) := by
    unfold parseEventDetail
    rw [htype, hdet]
    rfl
  have hiff : ((f.eventId != "" && !f.seatIds.isEmpty) = true) ↔
      (f.eventId ≠ "" ∧ f.seatIds ≠ []) := by
    simp [List.isEmpty_iff]
  unfold approvedHandle
  rw [hparse]
  by_cases h1 : ds (Call.updateStatus f.reservationId "CONFIRMED")
  · by_cases hc : (f.eventId != "" && !f.seatIds.isEmpty) = true
    · by_cases h2 : ds (Call.commitReservation f.eventId f.reservationId f.qty
        f.seatIds f.paymentIntentId)
      · refine ⟨by simp [h1, hc, h2], fun _ => ?_, fun hfalse => by rw [h1] at hfalse; cases hfalse⟩
        rw [← hiff]
        simp [h1, hc, h2, containsCommit, isCommit]
      · refine ⟨by simp [h1, hc, h2], fun _ => ?_, fun hfalse => by rw [h1] at hfalse; cases hfalse⟩
        rw [← hiff]
        simp [h1, hc, h2, containsCommit, isCommit]
    · refine ⟨by simp [h1, hc], fun _ => ?_, fun hfalse => by rw [h1] at hfalse; cases hfalse⟩
      rw [← hiff]
      simp [h1, hc, containsCommit, isCommit]
  · refine ⟨by simp [h1], fun htrue => ?_, fun _ => by simp [h1]⟩
    rw [htrue] at h1
    cases h1 rfl

/-- The spec's S2 approved event (no `event_id`, no `seat_ids` in the
payload) in the wired path's `handler.Event` shape. -/
def s2EventB : HEvent :=
  { id := "m2", type := "payment.approved",
    detail := RawDetail.obj
      { reservationId := "rsv_2", paymentIntentId := "pay_a", amount := 120000 },
    traceId := "" }

/-- Witness for `C6_approved_conditional_commit` at the S2 event: the
status update to CONFIRMED comes first and no inventory commit is made. -/
theorem C6_approved_conditional_commit_witness :
    (approvedHandle allOk s2EventB).2.head? =
        some (Call.updateStatus "rsv_2" "CONFIRMED") ∧
    containsCommit (approvedHandle allOk s2EventB).2 = false := by
  have h := C6_approved_conditional_commit allOk s2EventB
    { reservationId := "rsv_2", paymentIntentId := "pay_a", amount := 120000 } rfl rfl
  refine ⟨h.1, ?_⟩
  by_contra hne
  have hc : containsCommit (approvedHandle allOk s2EventB).2 = true := by
    cases hcc : containsCommit (approvedHandle allOk s2EventB).2
    · exact absurd hcc hne
    · rfl
  have := (h.2.1 rfl).mp hc
  exact this.2 rfl

/-- In a successful `backoffRetryGo` run the delete for the given receipt
was issued (inside the succeeding operation, worker.go line 279). -/
theorem backoffRetryGo_success_delete (opFails : Nat → Bool) (receipt : String) :
    ∀ fuel b elapsed attempt,
      (backoffRetryGo opFails receipt fuel b elapsed attempt).1 = true →
      AAction.delete receipt ∈ (backoffRetryGo opFails receipt fuel b elapsed attempt).2 := by
  intro fuel
  induction fuel with
  | zero => intro b elapsed attempt h; cases h
  | succ n ih =>
    intro b elapsed attempt h
    simp only [backoffRetryGo] at h ⊢
    by_cases hf : opFails (attempt + 1)
    · rw [if_pos hf] at h ⊢
      cases hnb : nextBackOff b elapsed with
      | none => rw [hnb] at h; simp at h
      | some p =>
        obtain ⟨d, b'⟩ := p
        rw [hnb] at h
        dsimp only at h ⊢
        exact List.mem_cons_of_mem _ (List.mem_cons_of_mem _ (ih _ _ _ h))
    · rw [if_neg hf]
      exact List.mem_cons_of_mem _ (List.mem_cons_self _ _)

/-- C9: whenever `Worker.parseEvent` accepts a message, the parsed event's
`TraceID` field holds the message's receipt handle — whatever `trace_id`
the wire body carried is overwritten — and the delete issued by
`processEventWithRetry` on handler success uses exactly that value. -/
theorem C9_receipt_in_traceId (msg : AMessage) (e' : AEvent)
    (h : parseEvent msg = Except.ok e') :
    e'.traceId = msg.receiptHandle ∧
    ∀ backoffBaseMs opFails,
      (processEventWithRetry backoffBaseMs opFails e').1 = true →
      AAction.delete msg.receiptHandle ∈
        (processEventWithRetry backoffBaseMs opFails e').2 := by
  have htr : e'.traceId = msg.receiptHandle := by
    cases hb : msg.body with
    | nilBody => simp [parseEvent, hb] at h
    | badJson => simp [parseEvent, hb] at h
    | decoded e =>
      simp only [parseEvent, hb] at h
      by_cases h1 : e.id = ""
      · rw [if_pos h1] at h; cases h
      · rw [if_neg h1] at h
        by_cases h2 : e.reservationId = ""
        · rw [if_pos h2] at h; cases h
        · rw [if_neg h2] at h
          by_cases h3 : e.type = ""
          · rw [if_pos h3] at h; cases h
          · rw [if_neg h3] at h
            cases h
            rfl
  refine ⟨htr, fun backoffBaseMs opFails hok => ?_⟩
  simp only [processEventWithRetry] at hok ⊢
  have hmem := backoffRetryGo_success_delete opFails e'.traceId 64
    { currentIntervalMs := backoffBaseMs, maxIntervalMs := 120000, maxElapsedMs := 300000 }
    0 0 hok
  rw [← htr]
  exact hmem

/-- A message whose decoded body carries a wire `trace_id`. -/
def msg9 : AMessage :=
  { body := ABody.decoded
      { id := "id-9", type := "payment.approved", reservationId := "rsv-9",
        eventId := "e-9", payload := [], traceId := "wire-trace" },
    receiptHandle := "rcpt-9", messageId := "mid-9" }

/-- Witness for `C9_receipt_in_traceId`: parsing `msg9` replaces the wire
trace id with the receipt handle, and a first-attempt success deletes by
that handle. -/
theorem C9_receipt_in_traceId_witness :
    ∃ e' : AEvent, parseEvent msg9 = Except.ok e' ∧
      e'.traceId = "rcpt-9" ∧
      AAction.delete "rcpt-9" ∈ (processEventWithRetry 1000 (fun _ => false) e').2 := by
  refine ⟨{ id := "id-9", type := "payment.approved", reservationId := "rsv-9",
            eventId := "e-9", payload := [], traceId := "rcpt-9" }, rfl, ?_, ?_⟩
  · exact (C9_receipt_in_traceId msg9 _ rfl).1
  · exact (C9_receipt_in_traceId msg9 _ rfl).2 1000 (fun _ => false) rfl

/-! ## internal/worker/worker.go, second unit: `Dispatcher.HandleEvent`

`HandleEvent(ctx, event, attempt)` routes by `event.Type`, and on handler
error either fails terminally (`attempt >= MaxRetries`) or sleeps
`config.GetBackoffDuration(attempt)` with a plain `time.Sleep` and calls
itself with `attempt+1`.  The body contains no `ctx.Done()` check and the
sleep is not select-interruptible; the context reaches only the handler,
whose per-attempt outcome `attemptFails` abstracts (under a cancelled
context every downstream call errors, so `attemptFails` is constantly
`true` there).  The Go recursion ends because `attempt` grows up to
`MaxRetries`; the Lean version recurses structurally on the equal quantity
`remaining = maxRetries - attempt`. -/

/-- The event types the `switch` in `HandleEvent` routes (worker.go lines
486-501); any other type is `invalid_payload` and is not retried. -/
def knownType (t : String) : Bool :=
  t == "reservation.expired" || t == "reservation.hold.expired" ||
  t == "payment.approved" || t == "payment.failed"

/-- A terminal outcome of `HandleEvent`, as recorded to the
`worker_events_total` outcome label. -/
inductive DOutcome where
  | success
  | failed
  | invalidPayload
deriving DecidableEq

/-- An observable step of a retry loop: a handler invocation (`attempt k`,
0-based as in `HandleEvent`'s parameter) or a completed backoff sleep. -/
inductive DAction where
  | attempt (k : Nat)
  | sleep (ms : Nat)
deriving DecidableEq

/-- The retry core of `Dispatcher.HandleEvent` (worker.go lines 503-536)
for a routed (known-type) event, recursing on `remaining = maxRetries -
attempt`: handler error with `maxRetries ≤ attempt` (that is, `remaining =
0`) is terminal failure; otherwise sleep the full backoff and recurse at
`attempt + 1`.  `cancelled` is the state of the per-event context; the
source consults it nowhere in this loop, and accordingly it is unused. -/
def handleEventAux (backoffMs : Nat → Nat) (cancelled : Bool)
    (attemptFails : Nat → Bool) : Nat → Nat → DOutcome × List DAction
  | remaining, attempt =>
    if attemptFails attempt then
      match remaining with
      | 0 => (DOutcome.failed, [DAction.attempt attempt])
      | r + 1 =>
        let rest := handleEventAux backoffMs cancelled attemptFails r (attempt + 1)
        (rest.1, DAction.attempt attempt :: DAction.sleep (backoffMs attempt) :: rest.2)
    else (DOutcome.success, [DAction.attempt attempt])

/-- `Dispatcher.HandleEvent` (worker.go lines 470-549): unknown types are
recorded `invalid_payload` with no handler invocation and no retry;
known types enter the retry core with `remaining = maxRetries - attempt`. -/
def handleEvent (maxRetries : Nat) (backoffMs : Nat → Nat) (cancelled : Bool)
    (attemptFails : Nat → Bool) (etype : String) (attempt : Nat) :
    DOutcome × List DAction :=
  if knownType etype then
    handleEventAux backoffMs cancelled attemptFails (maxRetries - attempt) attempt
  else (DOutcome.invalidPayload, [])

/-- C4 counterexample: with the per-event context already cancelled
(`cancelled = true`, every handler attempt failing as a cancelled context
makes downstream calls fail), `MaxRetries = 1` and a 1-second base,
`Dispatcher.HandleEvent` still sleeps the full backoff and begins retry
attempt 1 — the cancelled context neither interrupts the sleep nor
prevents further attempts. -/
theorem C4_counterexample :
    handleEvent 1 (fun _ => 1000) true (fun _ => true) "payment.failed" 0 =
      (DOutcome.failed,
       [DAction.attempt 0, DAction.sleep 1000, DAction.attempt 1]) ∧
    DAction.attempt 1 ∈
      (handleEvent 1 (fun _ => 1000) true (fun _ => true) "payment.failed" 0).2 := by
  refine ⟨by decide, by decide⟩

/-! ## unnamed/part_009, second unit: `Retryer.Do` (package retry)

The loop `for attempt := 0; attempt < MaxRetries; attempt++`: a `select`
on the context before each attempt; on error, break out at `attempt ==
MaxRetries-1`; otherwise a `select` racing the context against
`time.After(backoff)`.  Cancellation is modelled by two predicates:
`cancelledBefore k` — the context is observed cancelled at the check
preceding attempt `k`; `cancelledDuringSleep k` — the context fires
during the backoff wait following attempt `k`.  Recursion is structural on
`remaining = maxRetries - attempt`, positive on entry to the loop body. -/

/-- How a `Retryer.Do` run ends. -/
inductive RStatus where
  | ok
  | ctxErr
  | failedAfterMax
deriving DecidableEq

/-- The loop body of `Retryer.Do` (part_009 lines 126-171). -/
def retryerDoAux (cancelledBefore cancelledDuringSleep : Nat → Bool)
    (opFails : Nat → Bool) (backoffMs : Nat → Nat) :
    Nat → Nat → RStatus × List DAction
  | 0, _ => (RStatus.failedAfterMax, [])
  | r + 1, attempt =>
    if cancelledBefore attempt then (RStatus.ctxErr, [])
    else if !opFails attempt then (RStatus.ok, [DAction.attempt attempt])
    else if r = 0 then (RStatus.failedAfterMax, [DAction.attempt attempt])
    else if cancelledDuringSleep attempt then (RStatus.ctxErr, [DAction.attempt attempt])
    else
      let rest := retryerDoAux cancelledBefore cancelledDuringSleep opFails backoffMs
        r (attempt + 1)
      (rest.1, DAction.attempt attempt :: DAction.sleep (backoffMs attempt) :: rest.2)

/-- `Retryer.Do`: the loop starts at attempt 0 with `MaxRetries`
iterations remaining (so at most `MaxRetries` attempts in total). -/
def retryerDo (maxRetries : Nat) (cancelledBefore cancelledDuringSleep : Nat → Bool)
    (opFails : Nat → Bool) (backoffMs : Nat → Nat) : RStatus × List DAction :=
  retryerDoAux cancelledBefore cancelledDuringSleep opFails backoffMs maxRetries 0

/-- Every attempt in a `retryerDoAux` trace was reached only through
pre-attempt context checks that all read not-cancelled and backoff waits
that the context never interrupted. -/
theorem retryerDoAux_attempt_reached (cb cds opFails : Nat → Bool) (bms : Nat → Nat) :
    ∀ r a j, DAction.attempt j ∈ (retryerDoAux cb cds opFails bms r a).2 →
      a ≤ j ∧ (∀ i, a ≤ i → i ≤ j → cb i = false) ∧
      (∀ i, a ≤ i → i < j → cds i = false) := by
  intro r
  induction r with
  | zero => intro a j hj; simp [retryerDoAux] at hj
  | succ r ih =>
    intro a j hj
    simp only [retryerDoAux] at hj
    by_cases h1 : cb a
    · rw [if_pos h1] at hj; simp at hj
    · rw [if_neg h1] at hj
      rw [Bool.not_eq_true] at h1
      by_cases h2 : opFails a
      · rw [h2] at hj
        simp only [Bool.not_true, Bool.false_eq_true, if_false] at hj
        by_cases h3 : r = 0
        · rw [if_pos h3] at hj
          simp at hj
          refine ⟨le_of_eq hj.symm, ?_, ?_⟩
          · intro i hai hij
            have : i = a := le_antisymm (hj ▸ hij) hai
            rw [this]; exact h1
          · intro i hai hij
            exact absurd (lt_of_le_of_lt hai (hj ▸ hij)) (lt_irrefl a)
        · rw [if_neg h3] at hj
          by_cases h4 : cds a
          · rw [if_pos h4] at hj
            simp at hj
            refine ⟨le_of_eq hj.symm, ?_, ?_⟩
            · intro i hai hij
              have : i = a := le_antisymm (hj ▸ hij) hai
              rw [this]; exact h1
            · intro i hai hij
              exact absurd (lt_of_le_of_lt hai (hj ▸ hij)) (lt_irrefl a)
          · rw [if_neg h4] at hj
            rw [Bool.not_eq_true] at h4
            dsimp only at hj
            rcases List.mem_cons.mp hj with hj0 | hj'
            · have hja : j = a := by cases hj0; rfl
              refine ⟨le_of_eq hja.symm, ?_, ?_⟩
              · intro i hai hij
                have : i = a := le_antisymm (hja ▸ hij) hai
                rw [this]; exact h1
              · intro i hai hij
                exact absurd (lt_of_le_of_lt hai (hja ▸ hij)) (lt_irrefl a)
            · rcases List.mem_cons.mp hj' with hjs | hj''
              · cases hjs
              · obtain ⟨haj, hcb, hcds⟩ := ih (a + 1) j hj''
                refine ⟨le_trans (Nat.le_succ a) haj, ?_, ?_⟩
                · intro i hai hij
                  rcases Nat.lt_or_ge i (a + 1) with hlt | hge
                  · have : i = a := Nat.le_antisymm (Nat.lt_succ_iff.mp hlt) hai
                    rw [this]; exact h1
                  · exact hcb i hge hij
                · intro i hai hij
                  rcases Nat.lt_or_ge i (a + 1) with hlt | hge
                  · have : i = a := Nat.le_antisymm (Nat.lt_succ_iff.mp hlt) hai
                    rw [this]; exact h4
                  · exact hcds i hge hij
      · rw [Bool.not_eq_true] at h2
        rw [h2] at hj
        simp at hj
        refine ⟨le_of_eq hj.symm, ?_, ?_⟩
        · intro i hai hij
          have : i = a := le_antisymm (hj ▸ hij) hai
          rw [this]; exact h1
        · intro i hai hij
          exact absurd (lt_of_le_of_lt hai (hj ▸ hij)) (lt_irrefl a)

/-- `handleEventAux` is the same function for any two context states:
the dispatcher's retry loop never consults the context. -/
theorem handleEventAux_ignores_ctx (bms : Nat → Nat) (af : Nat → Bool)
    (c₁ c₂ : Bool) : ∀ r a,
    handleEventAux bms c₁ af r a = handleEventAux bms c₂ af r a := by
  intro r
  induction r with
  | zero => intro a; simp only [handleEventAux]
  | succ r ih =>
    intro a
    simp only [handleEventAux]
    rw [ih (a + 1)]

/-- C4 as amended: `Retryer.Do` honours cancellation — if the context is
observed cancelled at the check before attempt `k`, no attempt with index
`≥ k` ever runs, and if the context fires during the backoff wait after
attempt `k`, no attempt beyond `k` runs; `Dispatcher.HandleEvent`, by
contrast, never consults the per-event context in its retry loop (its
result is independent of the context state), sleeps the full backoff with
an uninterruptible `time.Sleep`, and begins further attempts after
cancellation, as the counterexample shows. -/
theorem C4_cancellation (maxRetries : Nat) (cb cds opFails : Nat → Bool)
    (bms : Nat → Nat) :
    (∀ k j, cb k = true → k ≤ j →
      DAction.attempt j ∉ (retryerDo maxRetries cb cds opFails bms).2) ∧
    (∀ k j, cds k = true → k < j →
      DAction.attempt j ∉ (retryerDo maxRetries cb cds opFails bms).2) ∧
    (∀ attemptFails etype attempt,
      handleEvent maxRetries bms true attemptFails etype attempt =
      handleEvent maxRetries bms false attemptFails etype attempt) := by
  refine ⟨?_, ?_, ?_⟩
  · intro k j hk hkj hmem
    obtain ⟨-, hcb, -⟩ := retryerDoAux_attempt_reached cb cds opFails bms maxRetries 0 j hmem
    rw [hcb k (Nat.zero_le k) hkj] at hk
    cases hk
  · intro k j hk hkj hmem
    obtain ⟨-, -, hcds⟩ := retryerDoAux_attempt_reached cb cds opFails bms maxRetries 0 j hmem
    rw [hcds k (Nat.zero_le k) hkj] at hk
    cases hk
  · intro attemptFails etype attempt
    unfold handleEvent
    rw [handleEventAux_ignores_ctx]

/-- Witness for `C4_cancellation`: with `MaxRetries = 3`, the context
cancelled from attempt 1 on and an always-failing operation, `Retryer.Do`
never starts attempt 1; and `HandleEvent`'s result at a cancelled context
equals its result at a live one. -/
theorem C4_cancellation_witness :
    DAction.attempt 1 ∉
      (retryerDo 3 (fun k => decide (1 ≤ k)) (fun _ => false) (fun _ => true)
        (fun _ => 100)).2 ∧
    handleEvent 3 (fun _ => 100) true (fun _ => true) "payment.approved" 0 =
      handleEvent 3 (fun _ => 100) false (fun _ => true) "payment.approved" 0 := by
  constructor
  · exact (C4_cancellation 3 (fun k => decide (1 ≤ k)) (fun _ => false)
      (fun _ => true) (fun _ => 100)).1 1 1 (by decide) (le_refl 1)
  · exact (C4_cancellation 3 (fun k => decide (1 ≤ k)) (fun _ => false)
      (fun _ => true) (fun _ => 100)).2.2 (fun _ => true) "payment.approved" 0

/-! ## internal/worker/worker.go, third unit: `SQSPoller`

`pollOnce` receives a batch, and for each message runs `processMessage`
(unmarshal into `handler.Event`, attach the `TraceId` attribute, default
`ID` from the message id, then send to the worker-pool channel) and — when
`processMessage` returned nil — deletes the message at once.  The
dispatcher has not run at this point.  On a `processMessage` error the
loop `continue`s without deleting. -/

/-- The body of an SQS message as `SQSPoller.processMessage` sees it. -/
inductive BBody where
  | nilBody
  | badJson
  | decoded (e : HEvent)

/-- An SQS message for the poller: body, receipt handle, message id, and
the optional `TraceId` message attribute. -/
structure BMessage where
  body : BBody
  receiptHandle : String
  messageId : String
  attrTraceId : Option String

/-- `SQSPoller.processMessage` (worker.go lines 677-715): nil or
undecodable body errors; the `TraceId` attribute, when present, overwrites
the event's trace id; an empty `ID` is defaulted from the message id;
finally the event is offered to the worker-pool channel — modelled by
`chanFree` — racing the context (`cancelled`) and a 30 s timeout.  When
several `select` arms are ready Go picks one at random; the model prefers
the send, the only case the claims exercise. -/
def processMessage (chanFree cancelled : Bool) (m : BMessage) : Except String HEvent :=
  match m.body with
  | BBody.nilBody => Except.error "message body is nil"
  | BBody.badJson => Except.error "failed to unmarshal event"
  | BBody.decoded e0 =>
    let e1 := match m.attrTraceId with
      | some t => { e0 with traceId := t }
      | none => e0
    let e2 := if e1.id = "" then { e1 with id := m.messageId } else e1
    if chanFree then Except.ok e2
    else if cancelled then Except.error "context cancelled"
    else Except.error "timeout sending event to worker pool"

/-- An observable action of `pollOnce`: an event handed to the worker
pool, or a queue delete. -/
inductive PAction where
  | enqueue (e : HEvent)
  | delete (receipt : String)

/-- `SQSPoller.pollOnce` (worker.go lines 632-674), the per-message part:
on a `processMessage` error, log and `continue` — no delete; on success,
delete the message from the queue immediately (lines 664-670), before any
worker has dispatched the event. -/
def pollOnce (chanFree cancelled : Bool) : List BMessage → List PAction
  | [] => []
  | m :: rest =>
    match processMessage chanFree cancelled m with
    | Except.error _ => pollOnce chanFree cancelled rest
    | Except.ok e =>
      PAction.enqueue e :: PAction.delete m.receiptHandle ::
        pollOnce chanFree cancelled rest

/-- A well-formed `payment.failed` event whose downstream always fails. -/
def c1Event : HEvent :=
  { id := "id-c1", type := "payment.failed",
    detail := RawDetail.obj
      { reservationId := "rsv-c1", paymentIntentId := "pay-c1", amount := 1 },
    traceId := "" }

/-- The SQS message delivering `c1Event`. -/
def c1Msg : BMessage :=
  { body := BBody.decoded c1Event, receiptHandle := "rcpt-c1",
    messageId := "mid-c1", attrTraceId := none }

/-- C1: the wired poller deletes a message as soon as its event is
enqueued to the worker pool — here the full poll trace is enqueue followed
immediately by delete — even though the dispatcher's subsequent processing
of that same event (downstream permanently failing, default
`MaxRetries = 5`) ends in exhausted-retries terminal failure, when the
claim forbids any delete.  The delete also precedes the dispatch, when the
claim requires it to follow terminal success. -/
theorem C1_pollOnce_deletes_despite_dispatch_failure :
    pollOnce true false [c1Msg] =
      [PAction.enqueue c1Event, PAction.delete "rcpt-c1"] ∧
    (handleEvent 5 (fun k => 1000 * 2 ^ k) false (fun _ => true) c1Event.type 0).1 =
      DOutcome.failed := by
  refine ⟨rfl, by decide⟩

/-- An undecodable (malformed) message for the poller. -/
def badMsgB : BMessage :=
  { body := BBody.badJson, receiptHandle := "rcpt-bad-b",
    messageId := "mid-bad-b", attrTraceId := none }

/-! ## Back to the first unit: `Worker.receiveAndProcessMessages`

For each received message, a `parseEvent` failure leads to an immediate
`deleteMessage` and `continue` — with only an error log: no metric of any
kind is recorded on this path (worker.go lines 158-172).  A parsed event
is offered to `jobChan` by a `select` whose `default` arm drops the offer
without deleting when the pool is full. -/

/-- An observable action of `receiveAndProcessMessages`: a queue delete,
an event enqueued to the worker pool, or a recorded outcome metric (the
constructor exists to state that the function records none). -/
inductive WAction where
  | delete (receipt : String)
  | enqueue (e : AEvent)
  | record (outcome : String)

/-- `Worker.receiveAndProcessMessages` (worker.go lines 139-190), the
per-message loop: malformed → delete once, continue; parsed → non-blocking
offer to the pool (enqueue when `chanFree`, abandon the rest of the batch
when the context is already done, otherwise drop the offer and keep the
message undeleted). -/
def receiveAndProcessMessages (chanFree cancelled : Bool) : List AMessage → List WAction
  | [] => []
  | m :: rest =>
    match parseEvent m with
    | Except.error _ =>
      WAction.delete m.receiptHandle :: receiveAndProcessMessages chanFree cancelled rest
    | Except.ok e =>
      if chanFree then WAction.enqueue e :: receiveAndProcessMessages chanFree cancelled rest
      else if cancelled then []
      else receiveAndProcessMessages chanFree cancelled rest

/-- An undecodable (malformed) message for the first worker. -/
def badMsgA : AMessage :=
  { body := ABody.badJson, receiptHandle := "rcpt-bad-a", messageId := "mid-bad-a" }

/-- C2 counterexample: a malformed (undecodable) message is not deleted at
all by the wired `SQSPoller.pollOnce` — its poll trace is empty — and the
unwired `Worker.receiveAndProcessMessages`, which does delete it exactly
once, records no `invalid_payload` (nor any) metric while doing so. -/
theorem C2_counterexample :
    pollOnce true false [badMsgB] = [] ∧
    receiveAndProcessMessages true false [badMsgA] =
      [WAction.delete "rcpt-bad-a"] := by
  exact ⟨rfl, rfl⟩

/-- `receiveAndProcessMessages` never emits a metric record. -/
theorem receiveAndProcessMessages_no_record (chanFree cancelled : Bool) :
    ∀ msgs s, WAction.record s ∉ receiveAndProcessMessages chanFree cancelled msgs := by
  intro msgs
  induction msgs with
  | nil => intro s h; simp [receiveAndProcessMessages] at h
  | cons m rest ih =>
    intro s h
    simp only [receiveAndProcessMessages] at h
    cases hp : parseEvent m with
    | error err =>
      rw [hp] at h
      rcases List.mem_cons.mp h with h0 | h'
      · cases h0
      · exact ih s h'
    | ok e =>
      rw [hp] at h
      dsimp only at h
      by_cases hc : chanFree
      · rw [if_pos hc] at h
        rcases List.mem_cons.mp h with h0 | h'
        · cases h0
        · exact ih s h'
      · rw [if_neg hc] at h
        by_cases hx : cancelled
        · rw [if_pos hx] at h; cases h
        · rw [if_neg hx] at h
          exact ih s h

/-- C2 as amended: a malformed message is handled asymmetrically by the
two pollers.  `Worker.receiveAndProcessMessages` deletes it exactly once,
hands it to no handler and never retries it — its whole trace is that one
delete — but records no `invalid_payload` metric (the function records no
metric at all); `SQSPoller.pollOnce` neither deletes nor enqueues a
malformed message, leaving it to redeliver via the visibility timeout. -/
theorem C2_malformed_handling (chanFree cancelled : Bool) (m : AMessage) (m' : BMessage)
    (hm : ∀ e, m.body ≠ ABody.decoded e)
    (hm' : ∀ e, m'.body ≠ BBody.decoded e) :
    receiveAndProcessMessages chanFree cancelled [m] = [WAction.delete m.receiptHandle] ∧
    (∀ s, WAction.record s ∉ receiveAndProcessMessages chanFree cancelled [m]) ∧
    pollOnce chanFree cancelled [m'] = [] := by
  refine ⟨?_, receiveAndProcessMessages_no_record chanFree cancelled [m], ?_⟩
  · have hperr : ∃ s, parseEvent m = Except.error s := by
      cases hb : m.body with
      | nilBody => exact ⟨"message body is nil", by simp [parseEvent, hb]⟩
      | badJson => exact ⟨"failed to unmarshal event", by simp [parseEvent, hb]⟩
      | decoded e => exact absurd hb (hm e)
    obtain ⟨s, hs⟩ := hperr
    simp [receiveAndProcessMessages, hs]
  · have hperr : ∃ s, processMessage chanFree cancelled m' = Except.error s := by
      cases hb : m'.body with
      | nilBody => exact ⟨"message body is nil", by simp [processMessage, hb]⟩
      | badJson => exact ⟨"failed to unmarshal event", by simp [processMessage, hb]⟩
      | decoded e => exact absurd hb (hm' e)
    obtain ⟨s, hs⟩ := hperr
    simp [pollOnce, hs]

/-- Witness for `C2_malformed_handling` at concrete undecodable messages. -/
theorem C2_malformed_handling_witness :
    receiveAndProcessMessages true false [badMsgA] =
      [WAction.delete "rcpt-bad-a"] ∧
    WAction.record "invalid_payload" ∉
      receiveAndProcessMessages true false [badMsgA] ∧
    pollOnce true false [badMsgB] = [] := by
  have h := C2_malformed_handling true false badMsgA badMsgB
    (fun e he => by cases he) (fun e he => by cases he)
  exact ⟨h.1, h.2.1 "invalid_payload", h.2.2⟩

/-! ## The two `Config.GetBackoffDuration` implementations

unnamed/part_003 (the env-validated config, lines 115-118) computes
`BackoffBaseDuration * time.Duration(1 << attempt)` — no ceiling of any
kind.  unnamed/part_002 (the flat config, lines 102-109) multiplies the
base by 2 once per loop iteration `for i := 0; i < attempt && i < 4; i++`,
capping the multiplier at `2^4 = 16`.  Durations are in milliseconds. -/

/-- part_003 `Config.GetBackoffDuration`: `base * (1 << attempt)`. -/
def getBackoffDuration3 (backoffBaseMs attempt : Nat) : Nat :=
  backoffBaseMs * (1 <<< attempt)

/-- The multiplier loop of part_002 `Config.GetBackoffDuration`:
`multiplier *= 2` while `i < attempt && i < 4`. -/
def goMult (attempt : Nat) : Nat → Nat → Nat
  | i, m => if h : i < attempt ∧ i < 4 then goMult attempt (i + 1) (m * 2) else m
termination_by i _ => 4 - i
decreasing_by omega

/-- part_002 `Config.GetBackoffDuration`: `BackoffBaseMS * multiplier`. -/
def getBackoffDuration2 (backoffBaseMS attempt : Nat) : Nat :=
  backoffBaseMS * goMult attempt 0 1

/-- Closed form of the part_002 multiplier loop. -/
theorem goMult_eq (k : Nat) :
    ∀ n i m, 4 - i ≤ n → goMult k i m = m * 2 ^ (min k 4 - i) := by
  intro n
  induction n with
  | zero =>
    intro i m hn
    rw [goMult]
    have hi4 : ¬i < 4 := by omega
    rw [dif_neg (by omega : ¬(i < k ∧ i < 4))]
    have : min k 4 - i = 0 := by omega
    rw [this, pow_zero, Nat.mul_one]
  | succ n ih =>
    intro i m hn
    rw [goMult]
    by_cases hc : i < k ∧ i < 4
    · rw [dif_pos hc]
      rw [ih (i + 1) (m * 2) (by omega)]
      have hexp : min k 4 - i = (min k 4 - (i + 1)) + 1 := by omega
      rw [hexp, pow_succ]
      ring
    · rw [dif_neg hc]
      have : min k 4 - i = 0 := by omega
      rw [this, pow_zero, Nat.mul_one]

/-- C7 counterexample: at the in-range configuration `base = 1000 ms`,
part_002's delay for attempt 5 is 16 s, not the claimed
`base·2^5 = 32 s` — and 32 s is below any ceiling on the order of two
minutes, so no such ceiling explains the difference; meanwhile part_003's
delay for attempt 10 is 1024 s, far above a two-minute hard ceiling. -/
theorem C7_counterexample :
    getBackoffDuration2 1000 5 = 16000 ∧
    1000 * 2 ^ 5 = 32000 ∧
    getBackoffDuration2 1000 5 ≠ 1000 * 2 ^ 5 ∧
    (32000 : Nat) < 120000 ∧
    getBackoffDuration3 1000 10 = 1024000 ∧
    120000 < getBackoffDuration3 1000 10 := by
  have h2 : getBackoffDuration2 1000 5 = 16000 := by
    unfold getBackoffDuration2
    rw [goMult_eq 5 4 0 1 (by omega)]
    decide
  have h3 : getBackoffDuration3 1000 10 = 1024000 := by
    unfold getBackoffDuration3
    rw [Nat.shiftLeft_eq]
  refine ⟨h2, by norm_num, ?_, by norm_num, h3, by rw [h3]; norm_num⟩
  rw [h2]
  norm_num

/-- C7 as amended: both `GetBackoffDuration`s are deterministic in the
attempt index and the configured base, but neither is
`base·2^k`-with-a-two-minute-ceiling: part_003's equals `base·2^k` with
no ceiling at all (it exceeds any bound for large `k`), and part_002's
equals `base·2^min(k,4)`, a hard cap of `16·base` reached from attempt 4
on. -/
theorem C7_backoff_formulas :
    (∀ base k, getBackoffDuration3 base k = base * 2 ^ k) ∧
    (∀ base k, getBackoffDuration2 base k = base * 2 ^ min k 4) ∧
    (∀ base k, getBackoffDuration2 base k ≤ 16 * base) ∧
    (∀ base c, 1 ≤ base → ∃ k, c < getBackoffDuration3 base k) := by
  have h3 : ∀ base k, getBackoffDuration3 base k = base * 2 ^ k := by
    intro base k
    unfold getBackoffDuration3
    rw [Nat.shiftLeft_eq, one_mul]
  have h2 : ∀ base k, getBackoffDuration2 base k = base * 2 ^ min k 4 := by
    intro base k
    unfold getBackoffDuration2
    rw [goMult_eq k 4 0 1 (by omega), one_mul, Nat.sub_zero]
  refine ⟨h3, h2, ?_, ?_⟩
  · intro base k
    rw [h2 base k, Nat.mul_comm 16 base]
    exact Nat.mul_le_mul_left base
      (Nat.pow_le_pow_right (by norm_num) (Nat.min_le_right k 4))
  · intro base c hbase
    refine ⟨c, ?_⟩
    rw [h3 base c]
    calc c < 2 ^ c := Nat.lt_two_pow c
      _ = 1 * 2 ^ c := (one_mul _).symm
      _ ≤ base * 2 ^ c := Nat.mul_le_mul_right _ hbase

/-- Witness for `C7_backoff_formulas` at `base = 1000`. -/
theorem C7_backoff_formulas_witness :
    getBackoffDuration3 1000 5 = 1000 * 2 ^ 5 ∧
    getBackoffDuration2 1000 5 = 1000 * 2 ^ min 5 4 ∧
    getBackoffDuration2 1000 5 ≤ 16 * 1000 ∧
    ∃ k, 120000 < getBackoffDuration3 1000 k :=
  ⟨C7_backoff_formulas.1 1000 5, C7_backoff_formulas.2.1 1000 5,
   C7_backoff_formulas.2.2.1 1000 5,
   C7_backoff_formulas.2.2.2 1000 120000 (by norm_num)⟩

/-! ## Worker pool concurrency (worker.go, first unit, lines 42-84, 221-243)

`NewWorker` allocates `jobChan` with buffer `WorkerConcurrency * 2`
(line 61); `Worker.Start` launches exactly `WorkerConcurrency` goroutines
running `Worker.worker`, each of which handles one event at a time in a
receive-process loop.  The pool is modelled as a labelled transition
system: the state holds the channel contents and, per worker, the event it
is processing (if any); a step either offers an event to a non-full
channel, lets an idle worker take the channel head, or lets a busy worker
finish.  Events are handled only inside workers, so the in-flight count is
the number of busy workers. -/

/-- State of the worker pool: the buffered `jobChan` contents and one slot
per spawned worker (`some e` while processing `e`). -/
structure PoolState where
  chan : List AEvent
  workers : List (Option AEvent)

/-- The state right after `Worker.Start`: empty channel, `n` idle
workers. -/
def initPool (n : Nat) : PoolState :=
  { chan := [], workers := List.replicate n none }

/-- One transition of the pool with concurrency `n`: the poller's
channel send (guarded by the `2·n` buffer), an idle worker receiving the
channel head, or a worker completing its event. -/
inductive PoolStep (n : Nat) : PoolState → PoolState → Prop where
  | offer (s : PoolState) (e : AEvent) :
      s.chan.length < 2 * n →
      PoolStep n s { chan := s.chan ++ [e], workers := s.workers }
  | take (s : PoolState) (i : Nat) (e : AEvent) (rest : List AEvent)
      (hi : i < s.workers.length) :
      s.workers.get ⟨i, hi⟩ = none → s.chan = e :: rest →
      PoolStep n s { chan := rest, workers := s.workers.set i (some e) }
  | finish (s : PoolState) (i : Nat) (e : AEvent) (hi : i < s.workers.length) :
      s.workers.get ⟨i, hi⟩ = some e →
      PoolStep n s { chan := s.chan, workers := s.workers.set i none }

/-- The pool states reachable from `Worker.Start`. -/
inductive PoolReach (n : Nat) : PoolState → Prop where
  | init : PoolReach n (initPool n)
  | step {s t : PoolState} : PoolReach n s → PoolStep n s t → PoolReach n t

/-- Number of events currently being handled: the busy workers. -/
def inFlight (s : PoolState) : Nat := s.workers.countP Option.isSome

/-- One pool step preserves the worker count and the channel bound. -/
theorem poolStep_preserve {n : Nat} {s t : PoolState} (hstep : PoolStep n s t)
    (hlen : s.workers.length = n) (hchan : s.chan.length ≤ 2 * n) :
    t.workers.length = n ∧ t.chan.length ≤ 2 * n := by
  cases hstep with
  | offer e hfull =>
    refine ⟨hlen, ?_⟩
    simpa using hfull
  | take i e rest hi hidle hhead =>
    refine ⟨?_, ?_⟩
    · simpa [List.length_set] using hlen
    · have : s.chan.length = rest.length + 1 := by rw [hhead]; rfl
      simp only
      omega
  | finish i e hi hbusy =>
    refine ⟨?_, ?_⟩
    · simpa [List.length_set] using hlen
    · simpa using hchan

/-- C8: in every reachable pool state there are exactly `n` workers (the
`Worker.Start` loop spawns `WorkerConcurrency` of them and none is added
or removed afterwards), the channel never holds more than its `2·n`
buffer, and the number of in-flight events — each held by exactly one
worker — never exceeds `n`. -/
theorem C8_pool_bound (n : Nat) (s : PoolState) (h : PoolReach n s) :
    s.workers.length = n ∧ s.chan.length ≤ 2 * n ∧ inFlight s ≤ n := by
  induction h with
  | init =>
    refine ⟨List.length_replicate n none, by simp [initPool], ?_⟩
    calc inFlight (initPool n) ≤ (initPool n).workers.length :=
          List.countP_le_length _
      _ = n := List.length_replicate n none
  | step hprev hstep ih =>
    obtain ⟨hlen, hchan, -⟩ := ih
    obtain ⟨hlen', hchan'⟩ := poolStep_preserve hstep hlen hchan
    refine ⟨hlen', hchan', ?_⟩
    calc inFlight _ ≤ _ := List.countP_le_length _
      _ = n := hlen'

/-- Witness for `C8_pool_bound` at the initial pool of 3 workers. -/
theorem C8_pool_bound_witness :
    (initPool 3).workers.length = 3 ∧ (initPool 3).chan.length ≤ 2 * 3 ∧
    inFlight (initPool 3) ≤ 3 :=
  C8_pool_bound 3 (initPool 3) PoolReach.init

end RW
